import Mathlib

set_option autoImplicit false

namespace FastCbv

/-! Shallow embedding of the fastapi-cbv view machinery
    (src/fastcbv/views.py, src/fastcbv/decorators.py,
    src/fastapi_cbv/routing.py).

    Python values that can appear as parameter defaults, class attributes or
    request-time keyword arguments are modelled by `PyVal`.  Type hints are
    modelled as strings identifying the resolved or raw hint object;
    `Option` models `inspect.Parameter.empty` (`none` = empty/absent). -/

inductive PyVal where
  | vNone
  | vInt (n : Int)
  | vStr (s : String)
  | vDep (fn : String)
  deriving DecidableEq, Repr

/-- Kinds of Python function parameters (`inspect.Parameter.kind`). -/
inductive PKind where
  | positionalOnly
  | positionalOrKeyword
  | varPositional
  | keywordOnly
  | varKeyword
  deriving DecidableEq, Repr

/-- Model of `inspect.Parameter`: name, kind, type hint (`none` =
    `Parameter.empty`), default (`none` = `Parameter.empty`, i.e. required). -/
structure Param where
  name : String
  kind : PKind
  ann : Option String
  default : Option PyVal
  deriving DecidableEq, Repr

/-- A Python dict with string keys: an insertion-ordered association list
    whose keys stay unique as long as it is only built with `dictSet`. -/
abbrev Dict (α : Type) := List (String × α)

/-- Assignment `d[k] = v` on an insertion-ordered dict: replaces the value in
    place when the key exists, appends otherwise (CPython dict semantics). -/
def dictSet {α : Type} (d : Dict α) (k : String) (v : α) : Dict α :=
  match d with
  | [] => [(k, v)]
  | (k1, v1) :: rest => if k1 = k then (k, v) :: rest else (k1, v1) :: dictSet rest k v

/-- Dict lookup (first matching key; keys are unique in real dicts). -/
def dlookup {α : Type} (k : String) : Dict α → Option α
  | [] => none
  | (k1, v) :: rest => if k1 = k then some v else dlookup k rest

/-- CPython `d1.update(d2)`: iterate `d2` in order, assigning into `d1`. -/
def dictUpdate {α : Type} (d1 d2 : Dict α) : Dict α :=
  match d2 with
  | [] => d1
  | (k, v) :: rest => dictUpdate (dictSet d1 k v) rest

/-- Removal of a key (used to split `request` from `**kwargs` when binding
    `BaseView.__init__`). -/
def dictRemove {α : Type} (k : String) : Dict α → Dict α
  | [] => []
  | (k1, v) :: rest => if k1 = k then rest else (k1, v) :: dictRemove k rest

/-- Matching of the regex `^_` with `re.match`: the name's first character
    is an underscore. -/
def headUnderscore (n : String) : Bool :=
  match n.data with
  | [] => false
  | c :: _ => c == '_'

/-- Python `str.lower()` (character-wise, as used on ASCII verb names). -/
def lowerStr (s : String) : String :=
  String.mk (s.data.map Char.toLower)

/-- Python `str.upper()` (character-wise, as used on ASCII verb names). -/
def upperStr (s : String) : String :=
  String.mk (s.data.map Char.toUpper)

/-- Boolean membership test on a list of names. -/
def nameMem (n : String) : List String → Bool
  | [] => false
  | m :: rest => (m == n) || nameMem n rest

/-- Boolean test that a list of names has no duplicates. -/
def namesNodup : List String → Bool
  | [] => true
  | n :: rest => !(nameMem n rest) && namesNodup rest

/-- Observable outcome of `typing.get_type_hints` on a target: `some` of the
    fully evaluated hint mapping, or `none` when it raised an exception. -/
abbrev HintsOutcome := Option (Dict String)

/-- Model of a Python class as seen by `_resolve_hints`: the
    `get_type_hints` outcome and the raw `__annotations__` mapping of every
    class in `__mro__` (most derived first, as `__mro__` lists them). -/
structure ClassAnns where
  typeHints : HintsOutcome
  mro : List (Dict String)
  deriving DecidableEq, Repr

/-- Model of a Python function or method: declared parameters in declaration
    order, `get_type_hints` outcome, raw `__annotations__`, and the status
    code attached by the `@status_code` decorator (if any). -/
structure PyFunc where
  params : List Param
  typeHints : HintsOutcome
  rawAnns : Dict String
  statusCode : Option Int
  deriving DecidableEq, Repr

/-- Fallback branch of `_resolve_hints` for a class:
    `hints = {}`, then `hints.update(klass.__annotations__)` for each klass
    in `reversed(obj.__mro__)` (least derived first, most derived last). -/
def mroFallback (mro : List (Dict String)) : Dict String :=
  mro.reverse.foldl dictUpdate []

/-- `_resolve_hints(obj)` for a class: `get_type_hints` when it succeeds,
    else the merged raw maps of the ancestor chain.  Total by construction
    (the `except Exception` branch never re-raises). -/
def resolveHintsCls (c : ClassAnns) : Dict String :=
  match c.typeHints with
  | some h => h
  | none => mroFallback c.mro

/-- `_resolve_hints(obj)` for a callable: `get_type_hints` when it succeeds,
    else the callable's own raw `__annotations__`. -/
def resolveHintsFunc (f : PyFunc) : Dict String :=
  match f.typeHints with
  | some h => h
  | none => f.rawAnns

/-- Model of a concrete `BaseView` subclass at class-definition time:
    annotation data for `_resolve_hints(cls)`, the non-callable attributes
    reachable by `getattr`, the `__prepare__` hook, and the callable
    attributes (method name, function) reachable by `getattr`. -/
structure ViewClass where
  anns : ClassAnns
  attrs : Dict PyVal
  prepare : PyFunc
  methods : Dict PyFunc
  deriving Repr

/-- Exclusion test of `_extract_class_params`:
    `any(re.match(e, name) for e in {"^return$", "^_"})`. -/
def classParamExcluded (n : String) : Bool :=
  n == "return" || headUnderscore n

/-- `_extract_class_params(cls)`: one KEYWORD_ONLY parameter per retained
    resolved hint, default `getattr(cls, name, Parameter.empty)`. -/
def extractClassParams (c : ViewClass) : List Param :=
  ((resolveHintsCls c.anns).filter fun na => !classParamExcluded na.1).map fun na =>
    { name := na.1, kind := .keywordOnly, ann := some na.2,
      default := dlookup na.1 c.attrs }

/-- Exclusion test of `_extract_func_params`:
    `any(re.match(e, p.name) for e in {"^self$", "^args$", "^kwargs$", "^_"})`.
    Matching is on the parameter NAME only, never on its kind. -/
def funcParamExcluded (n : String) : Bool :=
  n == "self" || n == "args" || n == "kwargs" || headUnderscore n

/-- `_extract_func_params(func)`: retained declared parameters in order,
    rebound KEYWORD_ONLY, hint replaced by `hints.get(p.name, p.annotation)`. -/
def extractFuncParams (f : PyFunc) : List Param :=
  (f.params.filter fun p => !funcParamExcluded p.name).map fun p =>
    { p with kind := .keywordOnly,
             ann := match dlookup p.name (resolveHintsFunc f) with
                    | some a => some a
                    | none => p.ann }

/-- `params.sort(key=lambda p: p.default is not inspect.Parameter.empty)`:
    CPython `list.sort` is stable, and a stable sort on a Bool key is exactly
    the stable partition — `False` (no default, required) first, `True`
    (has default) second, each side in source order. -/
def sortRequiredFirst (ps : List Param) : List Param :=
  (ps.filter fun p => p.default.isNone) ++ (ps.filter fun p => p.default.isSome)

/-- `inspect.Signature(parameters=ps)`: raises `ValueError` on a duplicate
    parameter name.  (All parameters here are KEYWORD_ONLY, so the
    kind-order and default-order checks of `Signature` cannot fire.) -/
def mkSignature (ps : List Param) : Except String (List Param) :=
  if namesNodup (ps.map Param.name) then .ok ps
  else .error "ValueError: duplicate parameter name"

/-- A `ViewConfig` together with the parameter lists the endpoint closure
    captures and the external signature attached to the endpoint. -/
structure ViewConfig where
  methodName : String
  classParams : List Param
  prepareParams : List Param
  methodParams : List Param
  signatureParams : List Param
  retAnn : Option String
  statusCode : Option Int
  deriving DecidableEq, Repr

def HTTP_METHODS : List String :=
  ["get", "post", "put", "patch", "delete", "head", "options"]

/-- One iteration of the `ViewMeta.__new__` loop body for a defined verb:
    extract the method parameters, build and sort the merged list, construct
    the `inspect.Signature` (which may raise), read the resolved return
    hint, and package the `ViewConfig`. -/
def buildConfig (cps pps : List Param) (mname : String) (f : PyFunc) :
    Except String ViewConfig :=
  match mkSignature (sortRequiredFirst (cps ++ pps ++ extractFuncParams f)) with
  | .error e => .error e
  | .ok sig =>
    .ok { methodName := mname, classParams := cps, prepareParams := pps,
          methodParams := extractFuncParams f, signatureParams := sig,
          retAnn := dlookup "return" (resolveHintsFunc f),
          statusCode := f.statusCode }

/-- The `for method_name in HTTP_METHODS` loop of `ViewMeta.__new__`:
    skip verbs the class does not define (`hasattr`), append a config for
    each defined verb, abort on the first raised exception. -/
def buildConfigs (cps pps : List Param) (c : ViewClass) :
    List String → Except String (List ViewConfig)
  | [] => .ok []
  | mname :: rest =>
    match dlookup mname c.methods with
    | none => buildConfigs cps pps c rest
    | some f =>
      match buildConfig cps pps mname f with
      | .error e => .error e
      | .ok cfg =>
        match buildConfigs cps pps c rest with
        | .error e => .error e
        | .ok cfgs => .ok (cfg :: cfgs)

/-- `ViewMeta.__new__` introspection for a subclass (`bases` nonempty):
    the configs list of the `ViewMetadata` stored on the class, or the
    exception that aborted the class definition. -/
def buildMeta (c : ViewClass) : Except String (List ViewConfig) :=
  buildConfigs (extractClassParams c) (extractFuncParams c.prepare) c HTTP_METHODS

/-- Python exceptions the request-time model distinguishes. -/
inductive PyErr where
  | keyError (k : String)
  | typeError (msg : String)
  | httpError (code : Int)
  | userError (msg : String)
  deriving DecidableEq, Repr

/-- The dict comprehension `{p.name: kwargs[p.name] for p in ps}`: evaluated
    left to right, `KeyError` on the first absent name. -/
def subsetAux (kwargs : Dict PyVal) (acc : Dict PyVal) :
    List Param → Except PyErr (Dict PyVal)
  | [] => .ok acc
  | p :: rest =>
    match dlookup p.name kwargs with
    | some v => subsetAux kwargs (dictSet acc p.name v) rest
    | none => .error (.keyError p.name)

def subsetByNames (ps : List Param) (kwargs : Dict PyVal) :
    Except PyErr (Dict PyVal) :=
  subsetAux kwargs [] ps

/-- A view instance: the stored request plus the attributes set by
    `__init__` (and possibly extended by `__prepare__`). -/
structure PyInstance where
  request : PyVal
  attrs : Dict PyVal
  deriving DecidableEq, Repr

/-- `BaseView.__init__` invoked as `cls(**ckw)`: `request` is bound by name
    (`TypeError` when absent), the remaining keywords become `**kwargs` and
    are set as instance attributes in order. -/
def baseViewInit (ckw : Dict PyVal) : Except PyErr PyInstance :=
  match dlookup "request" ckw with
  | none => .error (.typeError "missing required argument: request")
  | some req => .ok { request := req, attrs := dictRemove "request" ckw }

/-- Request-time behaviour of the three dynamic calls the endpoint makes —
    `cls(...)`, `instance.__prepare__(...)`, the verb method — each of which
    may raise. -/
structure RunBehavior where
  init : Dict PyVal → Except PyErr PyInstance
  prep : PyInstance → Dict PyVal → Except PyErr PyInstance
  handler : PyInstance → Dict PyVal → Except PyErr PyVal

/-- Trace events; each records the keyword dict passed to the call. -/
inductive Event where
  | constructed (ckw : Dict PyVal)
  | prepared (pkw : Dict PyVal)
  | invoked (mkw : Dict PyVal)
  deriving DecidableEq, Repr

/-- The body of the synthesized endpoint produced by `make_endpoint`: build
    the `class_params` subset and construct the instance, build the
    `prepare_params` subset and call the hook, build the `method_params`
    subset and call the verb method, returning its result; a raise at any
    stage aborts every later stage. -/
def runEndpoint (b : RunBehavior) (cps pps mps : List Param)
    (kwargs : Dict PyVal) : List Event × Except PyErr PyVal :=
  match subsetByNames cps kwargs with
  | .error e => ([], .error e)
  | .ok ckw =>
    match b.init ckw with
    | .error e => ([.constructed ckw], .error e)
    | .ok inst =>
      match subsetByNames pps kwargs with
      | .error e => ([.constructed ckw], .error e)
      | .ok pkw =>
        match b.prep inst pkw with
        | .error e => ([.constructed ckw, .prepared pkw], .error e)
        | .ok inst2 =>
          match subsetByNames mps kwargs with
          | .error e => ([.constructed ckw, .prepared pkw], .error e)
          | .ok mkw =>
            ([.constructed ckw, .prepared pkw, .invoked mkw],
             b.handler inst2 mkw)

/-- A route as registered through `add_api_route`. -/
structure Route where
  path : String
  httpMethod : String
  routeName : String
  statusCode : Option Int
  deriving DecidableEq, Repr

/-- Outcome of `APIRouter.add_view`. -/
inductive AddViewResult where
  | typeErr
  | warnedEmpty
  | ok (routes : List Route)
  deriving DecidableEq, Repr

/-- Python `a or b` for an optional string (`None` and `""` are falsy). -/
def pyStrOr (a : Option String) (b : String) : String :=
  match a with
  | some s => if s.isEmpty then b else s
  | none => b

def mkRoute (path routePre : String) (cfg : ViewConfig) : Route :=
  { path := path, httpMethod := upperStr cfg.methodName,
    routeName := routePre ++ "_" ++ cfg.methodName,
    statusCode := cfg.statusCode }

/-- `APIRouter.add_view`: `TypeError` for a non-view, warning plus no-op for
    an empty config list, else one route per config surviving the optional
    case-insensitive methods filter (an empty `methods` list is falsy in
    Python and therefore means no filter). -/
def addView (path : String) (isView : Bool) (configs : List ViewConfig)
    (methods : Option (List String)) (namePre : Option String)
    (viewNameAttr : Option String) (clsName : String) : AddViewResult :=
  if !isView then .typeErr
  else if configs.isEmpty then .warnedEmpty
  else
    let mfilter : Option (List String) :=
      match methods with
      | some ms => if ms.isEmpty then none else some (ms.map lowerStr)
      | none => none
    let routePre := pyStrOr namePre (pyStrOr viewNameAttr clsName)
    .ok (configs.filterMap fun cfg =>
      match mfilter with
      | some ms =>
        if nameMem cfg.methodName ms then some (mkRoute path routePre cfg)
        else none
      | none => some (mkRoute path routePre cfg))

/-! Helper lemmas about the dict model. -/

theorem nameMem_iff {l : List String} {n : String} : nameMem n l = true ↔ n ∈ l := by
  induction l with
  | nil => simp [nameMem]
  | cons m rest ih =>
    simp only [nameMem, Bool.or_eq_true, beq_iff_eq, List.mem_cons, ih]
    constructor
    · rintro (h | h)
      · exact Or.inl h.symm
      · exact Or.inr h
    · rintro (h | h)
      · exact Or.inl h.symm
      · exact Or.inr h

theorem namesNodup_iff {l : List String} : namesNodup l = true ↔ l.Nodup := by
  induction l with
  | nil => simp [namesNodup]
  | cons n rest ih =>
    simp only [namesNodup, Bool.and_eq_true, Bool.not_eq_true', List.nodup_cons, ih]
    constructor
    · rintro ⟨h1, h2⟩
      refine ⟨fun hm => ?_, h2⟩
      rw [nameMem_iff.mpr hm] at h1
      exact Bool.false_ne_true h1.symm
    · rintro ⟨h1, h2⟩
      refine ⟨?_, h2⟩
      cases hc : nameMem n rest with
      | false => rfl
      | true => exact absurd (nameMem_iff.mp hc) h1

theorem dlookup_dictSet {α : Type} (d : Dict α) (k1 k : String) (v : α) :
    dlookup k (dictSet d k1 v) = if k1 = k then some v else dlookup k d := by
  induction d with
  | nil => by_cases h : k1 = k <;> simp [dictSet, dlookup, h]
  | cons hd tl ih =>
    obtain ⟨k2, v2⟩ := hd
    by_cases h2 : k2 = k1
    · subst h2
      by_cases h3 : k2 = k <;> simp [dictSet, dlookup, h3]
    · by_cases h3 : k2 = k <;> by_cases h4 : k1 = k <;>
        simp_all [dictSet, dlookup]

theorem dlookup_eq_none {α : Type} {d : Dict α} {k : String}
    (h : ¬ k ∈ d.map Prod.fst) : dlookup k d = none := by
  induction d with
  | nil => rfl
  | cons hd tl ih =>
    obtain ⟨k1, v1⟩ := hd
    simp only [List.map_cons, List.mem_cons, not_or] at h
    have hne : ¬ k1 = k := fun he => h.1 (Eq.symm he)
    simp only [dlookup, if_neg hne]
    exact ih h.2

theorem dlookup_mem {α : Type} {d : Dict α} {k : String} {v : α}
    (h : dlookup k d = some v) : (k, v) ∈ d := by
  induction d with
  | nil => simp [dlookup] at h
  | cons hd tl ih =>
    obtain ⟨k1, v1⟩ := hd
    by_cases h1 : k1 = k
    · subst h1
      simp [dlookup] at h
      subst h
      exact List.mem_cons_self _ _
    · simp only [dlookup, if_neg h1] at h
      exact List.mem_cons_of_mem _ (ih h)

theorem dlookup_dictUpdate {α : Type} (d1 d2 : Dict α) (k : String)
    (h : namesNodup (d2.map Prod.fst) = true) :
    dlookup k (dictUpdate d1 d2) = (dlookup k d2).orElse fun _ => dlookup k d1 := by
  induction d2 generalizing d1 with
  | nil => simp [dictUpdate, dlookup, Option.orElse]
  | cons hd rest ih =>
    obtain ⟨k1, v1⟩ := hd
    simp only [List.map_cons, namesNodup, Bool.and_eq_true, Bool.not_eq_true'] at h
    have hrest := ih (dictSet d1 k1 v1) h.2
    by_cases hk : k1 = k
    · subst hk
      have hnone : dlookup k1 rest = none := by
        apply dlookup_eq_none
        intro hm
        rw [nameMem_iff.mpr hm] at h
        exact Bool.false_ne_true h.1.symm
      simp [dictUpdate, dlookup, hrest, hnone, dlookup_dictSet, Option.orElse]
    · simp only [dictUpdate, dlookup, if_neg hk]
      rw [hrest, dlookup_dictSet, if_neg hk]

theorem sortRequiredFirst_perm (ps : List Param) :
    (sortRequiredFirst ps).Perm ps := by
  unfold sortRequiredFirst
  have he : (ps.filter fun p => p.default.isSome) =
      ps.filter fun p => !p.default.isNone :=
    List.filter_congr fun p _ => by cases p.default <;> rfl
  rw [he]
  exact List.filter_append_perm (fun p => p.default.isNone) ps

theorem subsetAux_lookup_notmem {kwargs acc : Dict PyVal} {ps : List Param}
    {d : Dict PyVal} (h : subsetAux kwargs acc ps = .ok d) {n : String}
    (hn : ¬ n ∈ ps.map Param.name) : dlookup n d = dlookup n acc := by
  induction ps generalizing acc with
  | nil =>
    simp only [subsetAux, Except.ok.injEq] at h
    rw [h]
  | cons p rest ih =>
    simp only [List.map_cons, List.mem_cons, not_or] at hn
    simp only [subsetAux] at h
    cases hv : dlookup p.name kwargs with
    | none => rw [hv] at h; exact absurd h (by simp)
    | some v =>
      rw [hv] at h
      rw [ih h hn.2, dlookup_dictSet]
      have : ¬ p.name = n := fun he => hn.1 (Eq.symm he)
      rw [if_neg this]

theorem subsetAux_lookup_mem {kwargs acc : Dict PyVal} {ps : List Param}
    {d : Dict PyVal} (h : subsetAux kwargs acc ps = .ok d) {n : String}
    (hn : n ∈ ps.map Param.name) : dlookup n d = dlookup n kwargs := by
  induction ps generalizing acc with
  | nil => simp at hn
  | cons p rest ih =>
    simp only [subsetAux] at h
    cases hv : dlookup p.name kwargs with
    | none => rw [hv] at h; exact absurd h (by simp)
    | some v =>
      rw [hv] at h
      by_cases hr : n ∈ rest.map Param.name
      · exact ih h hr
      · simp only [List.map_cons, List.mem_cons] at hn
        have hpn : n = p.name := by
          cases hn with
          | inl h1 => exact h1
          | inr h1 => exact absurd h1 hr
        subst hpn
        rw [subsetAux_lookup_notmem h hr, dlookup_dictSet, if_pos rfl, hv]

theorem subsetByNames_lookup {kwargs : Dict PyVal} {ps : List Param}
    {d : Dict PyVal} (h : subsetByNames ps kwargs = .ok d) {n : String}
    (hn : n ∈ ps.map Param.name) : dlookup n d = dlookup n kwargs :=
  subsetAux_lookup_mem h hn

/-! Inversion lemmas for the metadata builder. -/

theorem buildConfig_ok_inv {cps pps : List Param} {mname : String} {f : PyFunc}
    {cfg : ViewConfig} (h : buildConfig cps pps mname f = .ok cfg) :
    cfg.methodName = mname ∧ cfg.classParams = cps ∧ cfg.prepareParams = pps ∧
    cfg.methodParams = extractFuncParams f ∧
    cfg.signatureParams = sortRequiredFirst (cps ++ pps ++ extractFuncParams f) ∧
    cfg.retAnn = dlookup "return" (resolveHintsFunc f) ∧
    cfg.statusCode = f.statusCode := by
  unfold buildConfig mkSignature at h
  by_cases hd : namesNodup
      ((sortRequiredFirst (cps ++ pps ++ extractFuncParams f)).map Param.name) = true
  · rw [if_pos hd] at h
    simp only [Except.ok.injEq] at h
    subst h
    exact ⟨rfl, rfl, rfl, rfl, rfl, rfl, rfl⟩
  · rw [if_neg hd] at h
    exact absurd h (by simp)

theorem buildConfig_ok_nodup {cps pps : List Param} {mname : String} {f : PyFunc}
    {cfg : ViewConfig} (h : buildConfig cps pps mname f = .ok cfg) :
    namesNodup ((cps ++ pps ++ extractFuncParams f).map Param.name) = true := by
  unfold buildConfig mkSignature at h
  by_cases hd : namesNodup
      ((sortRequiredFirst (cps ++ pps ++ extractFuncParams f)).map Param.name) = true
  · have hperm : (((sortRequiredFirst (cps ++ pps ++ extractFuncParams f)).map
        Param.name)).Perm ((cps ++ pps ++ extractFuncParams f).map Param.name) :=
      (sortRequiredFirst_perm _).map _
    rw [namesNodup_iff] at hd ⊢
    exact hperm.nodup_iff.mp hd
  · rw [if_neg hd] at h
    exact absurd h (by simp)

theorem buildConfig_error_of_dup {cps pps : List Param} (mname : String)
    {f : PyFunc}
    (h : namesNodup ((cps ++ pps ++ extractFuncParams f).map Param.name) = false) :
    buildConfig cps pps mname f = .error "ValueError: duplicate parameter name" := by
  unfold buildConfig mkSignature
  have hd : namesNodup
      ((sortRequiredFirst (cps ++ pps ++ extractFuncParams f)).map Param.name) = false := by
    cases hc : namesNodup
        ((sortRequiredFirst (cps ++ pps ++ extractFuncParams f)).map Param.name) with
    | false => rfl
    | true =>
      have hperm : (((sortRequiredFirst (cps ++ pps ++ extractFuncParams f)).map
          Param.name)).Perm ((cps ++ pps ++ extractFuncParams f).map Param.name) :=
        (sortRequiredFirst_perm _).map _
      rw [namesNodup_iff] at hc
      have hnn : namesNodup ((cps ++ pps ++ extractFuncParams f).map Param.name) = true :=
        namesNodup_iff.mpr (hperm.nodup_iff.mp hc)
      rw [hnn] at h
      exact absurd h (by simp)
  rw [hd]
  rfl

theorem buildConfigs_ok_mem {cps pps : List Param} {c : ViewClass}
    {verbs : List String} {cfgs : List ViewConfig}
    (h : buildConfigs cps pps c verbs = .ok cfgs) :
    ∀ cfg ∈ cfgs, ∃ f, dlookup cfg.methodName c.methods = some f ∧
      buildConfig cps pps cfg.methodName f = .ok cfg ∧ cfg.methodName ∈ verbs := by
  induction verbs generalizing cfgs with
  | nil =>
    simp only [buildConfigs, Except.ok.injEq] at h
    subst h
    intro cfg hc
    simp at hc
  | cons mname rest ih =>
    cases hm : dlookup mname c.methods with
    | none =>
      simp only [buildConfigs, hm] at h
      intro cfg hc
      obtain ⟨f, h1, h2, h3⟩ := ih h cfg hc
      exact ⟨f, h1, h2, List.mem_cons_of_mem _ h3⟩
    | some f =>
      simp only [buildConfigs, hm] at h
      cases hb : buildConfig cps pps mname f with
      | error e =>
        simp only [hb] at h
        exact Except.noConfusion h
      | ok cfg0 =>
        simp only [hb] at h
        cases hr : buildConfigs cps pps c rest with
        | error e =>
          simp only [hr] at h
          exact Except.noConfusion h
        | ok cfgs0 =>
          simp only [hr, Except.ok.injEq] at h
          subst h
          intro cfg hc
          cases hc with
          | head =>
            have hmn : cfg0.methodName = mname := (buildConfig_ok_inv hb).1
            rw [hmn]
            exact ⟨f, hm, hb, List.mem_cons_self _ _⟩
          | tail _ htl =>
            obtain ⟨g, h1, h2, h3⟩ := ih hr cfg htl
            exact ⟨g, h1, h2, List.mem_cons_of_mem _ h3⟩

theorem buildConfigs_ok_map {cps pps : List Param} {c : ViewClass}
    {verbs : List String} {cfgs : List ViewConfig}
    (h : buildConfigs cps pps c verbs = .ok cfgs) :
    cfgs.map ViewConfig.methodName =
      verbs.filter fun m => (dlookup m c.methods).isSome := by
  induction verbs generalizing cfgs with
  | nil =>
    simp only [buildConfigs, Except.ok.injEq] at h
    subst h
    rfl
  | cons mname rest ih =>
    cases hm : dlookup mname c.methods with
    | none =>
      simp only [buildConfigs, hm] at h
      rw [List.filter_cons]
      simp only [hm, Option.isSome_none, Bool.false_eq_true, if_false]
      exact ih h
    | some f =>
      simp only [buildConfigs, hm] at h
      cases hb : buildConfig cps pps mname f with
      | error e =>
        simp only [hb] at h
        exact Except.noConfusion h
      | ok cfg0 =>
        simp only [hb] at h
        cases hr : buildConfigs cps pps c rest with
        | error e =>
          simp only [hr] at h
          exact Except.noConfusion h
        | ok cfgs0 =>
          simp only [hr, Except.ok.injEq] at h
          subst h
          rw [List.filter_cons]
          simp only [hm, Option.isSome_some, if_true]
          rw [List.map_cons, (buildConfig_ok_inv hb).1, ih hr]

theorem buildConfigs_err_of_mem {cps pps : List Param} {c : ViewClass}
    {verbs : List String} {mname : String} {f : PyFunc}
    (hm : mname ∈ verbs) (hf : dlookup mname c.methods = some f)
    (he : buildConfig cps pps mname f = .error "ValueError: duplicate parameter name") :
    ∃ e, buildConfigs cps pps c verbs = .error e := by
  induction verbs with
  | nil => simp at hm
  | cons v rest ih =>
    by_cases hv : v = mname
    · subst hv
      refine ⟨"ValueError: duplicate parameter name", ?_⟩
      simp only [buildConfigs, hf, he]
    · have hmr : mname ∈ rest := by
        cases hm with
        | head => exact absurd rfl hv
        | tail _ h1 => exact h1
      obtain ⟨e, herr⟩ := ih hmr
      cases hl : dlookup v c.methods with
      | none =>
        refine ⟨e, ?_⟩
        simp only [buildConfigs, hl]
        exact herr
      | some g =>
        cases hb : buildConfig cps pps v g with
        | error e1 =>
          refine ⟨e1, ?_⟩
          simp only [buildConfigs, hl, hb]
        | ok cfg0 =>
          refine ⟨e, ?_⟩
          simp only [buildConfigs, hl, hb, herr]

theorem runEndpoint_ok {b : RunBehavior} {cps pps mps : List Param}
    {kwargs : Dict PyVal} {v : PyVal}
    (h : (runEndpoint b cps pps mps kwargs).2 = .ok v) :
    ∃ ckw inst pkw inst2 mkw,
      subsetByNames cps kwargs = .ok ckw ∧ b.init ckw = .ok inst ∧
      subsetByNames pps kwargs = .ok pkw ∧ b.prep inst pkw = .ok inst2 ∧
      subsetByNames mps kwargs = .ok mkw ∧ b.handler inst2 mkw = .ok v ∧
      (runEndpoint b cps pps mps kwargs).1 =
        [.constructed ckw, .prepared pkw, .invoked mkw] := by
  cases h1 : subsetByNames cps kwargs with
  | error e => simp only [runEndpoint, h1] at h; exact Except.noConfusion h
  | ok ckw =>
  cases h2 : b.init ckw with
  | error e => simp only [runEndpoint, h1, h2] at h; exact Except.noConfusion h
  | ok inst =>
  cases h3 : subsetByNames pps kwargs with
  | error e => simp only [runEndpoint, h1, h2, h3] at h; exact Except.noConfusion h
  | ok pkw =>
  cases h4 : b.prep inst pkw with
  | error e => simp only [runEndpoint, h1, h2, h3, h4] at h; exact Except.noConfusion h
  | ok inst2 =>
  cases h5 : subsetByNames mps kwargs with
  | error e =>
    simp only [runEndpoint, h1, h2, h3, h4, h5] at h
    exact Except.noConfusion h
  | ok mkw =>
    simp only [runEndpoint, h1, h2, h3, h4, h5] at h
    refine ⟨ckw, inst, pkw, inst2, mkw, rfl, h2, rfl, h4, rfl, h, ?_⟩
    simp only [runEndpoint, h1, h2, h3, h4, h5]

theorem runEndpoint_invoked {b : RunBehavior} {cps pps mps : List Param}
    {kwargs : Dict PyVal} {mkw : Dict PyVal}
    (h : Event.invoked mkw ∈ (runEndpoint b cps pps mps kwargs).1) :
    ∃ ckw inst pkw inst2,
      subsetByNames cps kwargs = .ok ckw ∧ b.init ckw = .ok inst ∧
      subsetByNames pps kwargs = .ok pkw ∧ b.prep inst pkw = .ok inst2 ∧
      subsetByNames mps kwargs = .ok mkw := by
  cases h1 : subsetByNames cps kwargs with
  | error e => simp [runEndpoint, h1] at h
  | ok ckw =>
  cases h2 : b.init ckw with
  | error e => simp [runEndpoint, h1, h2] at h
  | ok inst =>
  cases h3 : subsetByNames pps kwargs with
  | error e => simp [runEndpoint, h1, h2, h3] at h
  | ok pkw =>
  cases h4 : b.prep inst pkw with
  | error e => simp [runEndpoint, h1, h2, h3, h4] at h
  | ok inst2 =>
  cases h5 : subsetByNames mps kwargs with
  | error e => simp [runEndpoint, h1, h2, h3, h4, h5] at h
  | ok mkw0 =>
    simp only [runEndpoint, h1, h2, h3, h4, h5, List.mem_cons,
      List.not_mem_nil, or_false] at h
    have hkw : mkw = mkw0 := by
      rcases h with h | h | h
      · exact Event.noConfusion h
      · exact Event.noConfusion h
      · exact Event.invoked.inj h
    subst hkw
    exact ⟨ckw, inst, pkw, inst2, rfl, h2, rfl, h4, rfl⟩

theorem filterMap_if {α β : Type} (p : α → Bool) (g : α → β) (l : List α) :
    (l.filterMap fun a => if p a then some (g a) else none) =
      (l.filter p).map g := by
  induction l with
  | nil => rfl
  | cons a rest ih =>
    by_cases h : p a <;>
      simp [List.filterMap_cons, List.filter_cons, h, ih]

theorem pairwise_partition (l : List Param) :
    ((l.filter fun p => p.default.isNone) ++
      (l.filter fun p => p.default.isSome)).Pairwise
      fun p q => p.default.isSome = true → q.default.isSome = true := by
  rw [List.pairwise_append]
  refine ⟨?_, ?_, ?_⟩
  · apply List.pairwise_of_forall_mem_list
    intro a ha b _
    intro hsome
    have := (List.mem_filter.mp ha).2
    rw [Option.isNone_iff_eq_none] at this
    rw [this] at hsome
    exact absurd hsome (by simp)
  · apply List.pairwise_of_forall_mem_list
    intro a _ b hb _
    exact (List.mem_filter.mp hb).2
  · intro a _ b hb _
    exact (List.mem_filter.mp hb).2

/-! Shared concrete fixtures used by the per-claim witnesses. -/

/-- The parameter `self` as declared on a method. -/
def selfP : Param := { name := "self", kind := .positionalOrKeyword, ann := none, default := none }

/-- A method `async def get(self, x: int) -> dict`. -/
def wGetFunc : PyFunc :=
  { params := [selfP, { name := "x", kind := .positionalOrKeyword, ann := some "int", default := none }],
    typeHints := some [("x", "int"), ("return", "dict")],
    rawAnns := [("x", "int"), ("return", "dict")],
    statusCode := none }

/-- The inherited `BaseView.__prepare__(self, *args, **kwargs)`. -/
def wPrepareFunc : PyFunc :=
  { params := [selfP,
      { name := "args", kind := .varPositional, ann := none, default := none },
      { name := "kwargs", kind := .varKeyword, ann := none, default := none }],
    typeHints := some [], rawAnns := [], statusCode := none }

/-- A minimal concrete subclass: only the inherited annotations
    `_meta: ViewMetadata` and `request: Request` plus one `get` method. -/
def wClass : ViewClass :=
  { anns := { typeHints := some [("_meta", "ViewMetadata"), ("request", "Request")],
              mro := [[("_meta", "ViewMetadata"), ("request", "Request")], []] },
    attrs := [],
    prepare := wPrepareFunc,
    methods := [("get", wGetFunc)] }

/-- The config `buildMeta wClass` produces. -/
def wCfg : ViewConfig :=
  { methodName := "get",
    classParams := [{ name := "request", kind := .keywordOnly, ann := some "Request", default := none }],
    prepareParams := [],
    methodParams := [{ name := "x", kind := .keywordOnly, ann := some "int", default := none }],
    signatureParams :=
      [{ name := "request", kind := .keywordOnly, ann := some "Request", default := none },
       { name := "x", kind := .keywordOnly, ann := some "int", default := none }],
    retAnn := some "dict",
    statusCode := none }

theorem wClass_buildMeta : buildMeta wClass = .ok [wCfg] := by rfl

/-- Claim C1: for every view class with at least one verb method, the
    synthesized endpoint's externally visible signature is exactly the
    concatenation class_params ++ prepare_params ++ method_params, stably
    partitioned: every parameter without a default precedes every parameter
    with a default, each partition keeping the source concatenation order
    (assuming class definition completed, i.e. `buildMeta` returned ok). -/
theorem C1_signature_stable_partition (c : ViewClass) (cfgs : List ViewConfig)
    (cfg : ViewConfig) (hb : buildMeta c = .ok cfgs) (hcfg : cfg ∈ cfgs) :
    cfg.classParams = extractClassParams c ∧
    cfg.prepareParams = extractFuncParams c.prepare ∧
    cfg.signatureParams =
      ((cfg.classParams ++ cfg.prepareParams ++ cfg.methodParams).filter
          fun p => p.default.isNone) ++
        ((cfg.classParams ++ cfg.prepareParams ++ cfg.methodParams).filter
          fun p => p.default.isSome) ∧
    cfg.signatureParams.Pairwise
      (fun p q => p.default.isSome = true → q.default.isSome = true) ∧
    cfg.signatureParams.Perm
      (cfg.classParams ++ cfg.prepareParams ++ cfg.methodParams) := by
  have hb2 : buildConfigs (extractClassParams c) (extractFuncParams c.prepare)
      c HTTP_METHODS = .ok cfgs := hb
  obtain ⟨f, hm, hcf, hmem⟩ := buildConfigs_ok_mem hb2 cfg hcfg
  obtain ⟨h1, h2, h3, h4, h5, h6, h7⟩ := buildConfig_ok_inv hcf
  have hsig : cfg.signatureParams =
      sortRequiredFirst (cfg.classParams ++ cfg.prepareParams ++ cfg.methodParams) := by
    rw [h5, h2, h3, h4]
  refine ⟨h2, h3, hsig, ?_, ?_⟩
  · rw [hsig]
    exact pairwise_partition _
  · rw [hsig]
    exact sortRequiredFirst_perm _

/-- Witness for C1 at the concrete view `wClass`. -/
theorem C1_witness :
    wCfg.classParams = extractClassParams wClass ∧
    wCfg.prepareParams = extractFuncParams wClass.prepare ∧
    wCfg.signatureParams =
      ((wCfg.classParams ++ wCfg.prepareParams ++ wCfg.methodParams).filter
          fun p => p.default.isNone) ++
        ((wCfg.classParams ++ wCfg.prepareParams ++ wCfg.methodParams).filter
          fun p => p.default.isSome) ∧
    wCfg.signatureParams.Pairwise
      (fun p q => p.default.isSome = true → q.default.isSome = true) ∧
    wCfg.signatureParams.Perm
      (wCfg.classParams ++ wCfg.prepareParams ++ wCfg.methodParams) :=
  C1_signature_stable_partition wClass [wCfg] wCfg wClass_buildMeta
    (List.mem_singleton.mpr rfl)

/-- Behaviour fixture: the base constructor, a no-op hook, a handler
    returning the integer 7. -/
def wBeh : RunBehavior :=
  { init := baseViewInit,
    prep := fun inst _ => .ok inst,
    handler := fun _ _ => .ok (.vInt 7) }

/-- A flat keyword mapping as the router would bind it. -/
def wKwargs : Dict PyVal := [("request", .vStr "req"), ("x", .vInt 3)]

/-- Claim C2: every synthesized endpoint, on any flat keyword mapping,
    first constructs the view instance from the class_params subset, then
    invokes the pre-dispatch hook with the prepare_params subset, then
    invokes the verb method with the method_params subset and returns the
    method's result; and the verb method is invoked only when the subsets,
    the construction and the hook all succeeded — so a raise during
    construction or the hook means the verb method never runs. -/
theorem C2_endpoint_sequencing (c : ViewClass) (cfgs : List ViewConfig)
    (cfg : ViewConfig) (b : RunBehavior) (kwargs : Dict PyVal)
    (hb : buildMeta c = .ok cfgs) (hcfg : cfg ∈ cfgs) :
    (∀ v, (runEndpoint b cfg.classParams cfg.prepareParams cfg.methodParams
        kwargs).2 = .ok v →
      ∃ ckw inst pkw inst2 mkw,
        subsetByNames cfg.classParams kwargs = .ok ckw ∧
        b.init ckw = .ok inst ∧
        subsetByNames cfg.prepareParams kwargs = .ok pkw ∧
        b.prep inst pkw = .ok inst2 ∧
        subsetByNames cfg.methodParams kwargs = .ok mkw ∧
        b.handler inst2 mkw = .ok v ∧
        (runEndpoint b cfg.classParams cfg.prepareParams cfg.methodParams
          kwargs).1 = [.constructed ckw, .prepared pkw, .invoked mkw]) ∧
    (∀ mkw, Event.invoked mkw ∈ (runEndpoint b cfg.classParams
        cfg.prepareParams cfg.methodParams kwargs).1 →
      ∃ ckw inst pkw inst2,
        subsetByNames cfg.classParams kwargs = .ok ckw ∧
        b.init ckw = .ok inst ∧
        subsetByNames cfg.prepareParams kwargs = .ok pkw ∧
        b.prep inst pkw = .ok inst2 ∧
        subsetByNames cfg.methodParams kwargs = .ok mkw) :=
  ⟨fun _ h => runEndpoint_ok h, fun _ h => runEndpoint_invoked h⟩

/-- Witness for C2 at the concrete view `wClass` and mapping `wKwargs`. -/
theorem C2_witness :
    (∀ v, (runEndpoint wBeh wCfg.classParams wCfg.prepareParams
        wCfg.methodParams wKwargs).2 = .ok v →
      ∃ ckw inst pkw inst2 mkw,
        subsetByNames wCfg.classParams wKwargs = .ok ckw ∧
        wBeh.init ckw = .ok inst ∧
        subsetByNames wCfg.prepareParams wKwargs = .ok pkw ∧
        wBeh.prep inst pkw = .ok inst2 ∧
        subsetByNames wCfg.methodParams wKwargs = .ok mkw ∧
        wBeh.handler inst2 mkw = .ok v ∧
        (runEndpoint wBeh wCfg.classParams wCfg.prepareParams
          wCfg.methodParams wKwargs).1 =
            [.constructed ckw, .prepared pkw, .invoked mkw]) ∧
    (∀ mkw, Event.invoked mkw ∈ (runEndpoint wBeh wCfg.classParams
        wCfg.prepareParams wCfg.methodParams wKwargs).1 →
      ∃ ckw inst pkw inst2,
        subsetByNames wCfg.classParams wKwargs = .ok ckw ∧
        wBeh.init ckw = .ok inst ∧
        subsetByNames wCfg.prepareParams wKwargs = .ok pkw ∧
        wBeh.prep inst pkw = .ok inst2 ∧
        subsetByNames wCfg.methodParams wKwargs = .ok mkw) :=
  C2_endpoint_sequencing wClass [wCfg] wCfg wBeh wKwargs wClass_buildMeta
    (List.mem_singleton.mpr rfl)

/-- Claim C3: when a view class's metadata build succeeds, `configs` lists
    exactly the verbs the class defines (directly or by inheritance, via
    `hasattr`), in `HTTP_METHODS` order, one config per defined verb, verb
    names drawn only from the fixed seven-element set; verbs the class does
    not define contribute no config. -/
theorem C3_configs_exactly_defined_verbs (c : ViewClass)
    (cfgs : List ViewConfig) (hb : buildMeta c = .ok cfgs) :
    cfgs.map ViewConfig.methodName =
      HTTP_METHODS.filter (fun m => (dlookup m c.methods).isSome) ∧
    cfgs.length =
      (HTTP_METHODS.filter fun m => (dlookup m c.methods).isSome).length ∧
    ∀ cfg ∈ cfgs, cfg.methodName ∈ HTTP_METHODS := by
  have hb2 : buildConfigs (extractClassParams c) (extractFuncParams c.prepare)
      c HTTP_METHODS = .ok cfgs := hb
  have hmap := buildConfigs_ok_map hb2
  refine ⟨hmap, ?_, ?_⟩
  · rw [← hmap, List.length_map]
  · intro cfg hc
    have hmem : cfg.methodName ∈ cfgs.map ViewConfig.methodName :=
      List.mem_map_of_mem _ hc
    rw [hmap] at hmem
    exact List.mem_of_mem_filter hmem

/-- Witness for C3 at the concrete view `wClass` (one defined verb). -/
theorem C3_witness :
    ([wCfg].map ViewConfig.methodName =
      HTTP_METHODS.filter (fun m => (dlookup m wClass.methods).isSome)) ∧
    [wCfg].length =
      (HTTP_METHODS.filter fun m => (dlookup m wClass.methods).isSome).length ∧
    ∀ cfg ∈ [wCfg], cfg.methodName ∈ HTTP_METHODS :=
  C3_configs_exactly_defined_verbs wClass [wCfg] wClass_buildMeta

/-- Claim C4: the annotation resolver is total (it never lets an exception
    escape — its result type is a plain mapping); when full evaluation
    fails it returns, for a class, the raw annotation maps of the ancestor
    chain merged most-derived-last, so an entry from a more derived class
    overrides an ancestor's entry of the same name, and for a callable the
    callable's own raw annotation map. -/
theorem C4_resolver_fallback :
    (∀ c : ClassAnns, c.typeHints = none →
      resolveHintsCls c = mroFallback c.mro) ∧
    (∀ f : PyFunc, f.typeHints = none → resolveHintsFunc f = f.rawAnns) ∧
    (∀ (d : Dict String) (ds : List (Dict String)) (k : String),
      namesNodup (d.map Prod.fst) = true →
      dlookup k (mroFallback (d :: ds)) =
        (dlookup k d).orElse fun _ => dlookup k (mroFallback ds)) := by
  refine ⟨?_, ?_, ?_⟩
  · intro c h
    simp [resolveHintsCls, h]
  · intro f h
    simp [resolveHintsFunc, h]
  · intro d ds k h
    have hstep : mroFallback (d :: ds) = dictUpdate (mroFallback ds) d := by
      simp [mroFallback, List.reverse_cons, List.foldl_append]
    rw [hstep]
    exact dlookup_dictUpdate _ _ _ h

/-- Class fixture whose `get_type_hints` call raises (a hint only exists
    under `TYPE_CHECKING`): resolver must fall back to the merged raw maps. -/
def wAnnsFail : ClassAnns :=
  { typeHints := none,
    mro := [[("request", "Sub")], [("request", "Base"), ("x", "int")]] }

/-- Callable fixture whose `get_type_hints` call raises. -/
def wFuncFail : PyFunc :=
  { params := [], typeHints := none, rawAnns := [("y", "str")],
    statusCode := none }

/-- Witness for C4 at concrete fallback inputs. -/
theorem C4_witness :
    resolveHintsCls wAnnsFail = mroFallback wAnnsFail.mro ∧
    resolveHintsFunc wFuncFail = wFuncFail.rawAnns ∧
    dlookup "request"
        (mroFallback ([("request", "Sub")] :: [[("request", "Base"), ("x", "int")]])) =
      (dlookup "request" [("request", "Sub")]).orElse
        fun _ => dlookup "request" (mroFallback [[("request", "Base"), ("x", "int")]]) :=
  ⟨C4_resolver_fallback.1 wAnnsFail rfl,
   C4_resolver_fallback.2.1 wFuncFail rfl,
   C4_resolver_fallback.2.2 [("request", "Sub")]
     [[("request", "Base"), ("x", "int")]] "request" (by rfl)⟩

/-- A method `async def get(self, x: int)` whose parameter name collides
    with the class-level field `x`. -/
def c5GetFunc : PyFunc :=
  { params := [selfP,
      { name := "x", kind := .positionalOrKeyword, ann := some "int", default := none }],
    typeHints := some [("x", "int")], rawAnns := [("x", "int")],
    statusCode := none }

/-- A view class with class field `x: int` and method parameter `x: int`. -/
def c5Class : ViewClass :=
  { anns := { typeHints := some [("request", "Request"), ("x", "int")],
              mro := [[("request", "Request"), ("x", "int")], []] },
    attrs := [],
    prepare := wPrepareFunc,
    methods := [("get", c5GetFunc)] }

/-- Counterexample to C5 as stated: with the colliding name `x` in both
    class_params and method_params, class definition does NOT succeed —
    `inspect.Signature` raises ValueError and no endpoint is produced. -/
theorem C5_counterexample :
    buildMeta c5Class = .error "ValueError: duplicate parameter name" := by
  rfl

/-- Claim C5 (amended): the builder performs no deduplication, and when the
    same parameter name appears in more than one of class_params,
    prepare_params and method_params of a defined verb, class definition
    fails with the duplicate-parameter ValueError raised by signature
    construction; no endpoint is produced. -/
theorem C5_amended_duplicate_fails (c : ViewClass) (mname : String)
    (f : PyFunc) (hm : mname ∈ HTTP_METHODS)
    (hf : dlookup mname c.methods = some f)
    (hdup : namesNodup ((extractClassParams c ++ extractFuncParams c.prepare ++
      extractFuncParams f).map Param.name) = false) :
    ∃ e, buildMeta c = .error e :=
  buildConfigs_err_of_mem hm hf (buildConfig_error_of_dup mname hdup)

/-- Witness for the amended C5 at the concrete colliding view. -/
theorem C5_witness : ∃ e, buildMeta c5Class = .error e :=
  C5_amended_duplicate_fails c5Class "get" c5GetFunc (by simp [HTTP_METHODS])
    (by rfl) (by rfl)

/-- A method `async def get(self, *items)`: its variadic-positional
    parameter is named `items`, not `args`. -/
def c6Func : PyFunc :=
  { params := [selfP,
      { name := "items", kind := .varPositional, ann := none, default := none }],
    typeHints := some [], rawAnns := [], statusCode := none }

/-- The exclusion rule exactly as the C6 claim words it — by variadic KIND
    plus the names `self` and underscore-prefixed — for comparison with the
    code's purely name-based rule. -/
def funcParamExcludedSpec (p : Param) : Bool :=
  p.name == "self" || p.kind == PKind.varPositional ||
    p.kind == PKind.varKeyword || headUnderscore p.name

/-- The function-parameter extractor as the C6 claim describes it. -/
def extractFuncParamsSpec (f : PyFunc) : List Param :=
  (f.params.filter fun p => !funcParamExcludedSpec p).map fun p =>
    { p with kind := .keywordOnly,
             ann := match dlookup p.name (resolveHintsFunc f) with
                    | some a => some a
                    | none => p.ann }

/-- Counterexample to C6 as stated: for `def get(self, *items)` the code
    RETAINS the variadic-positional parameter `items` (the exclusion
    patterns match the names `args`/`kwargs`, not the variadic kinds),
    while the claim's exclusion-by-kind would drop it. -/
theorem C6_counterexample :
    extractFuncParams c6Func =
      [{ name := "items", kind := .keywordOnly, ann := none, default := none }] ∧
    extractFuncParamsSpec c6Func = [] ∧
    extractFuncParams c6Func ≠ extractFuncParamsSpec c6Func :=
  ⟨by rfl, by rfl, by decide⟩

/-- Claim C6 (amended): the extractor returns exactly the callable's
    declared parameters in declaration order after excluding parameters
    whose NAME is exactly `self`, exactly `args`, exactly `kwargs`, or
    starts with an underscore (the conventional variadic names — kinds are
    never consulted); each retained descriptor keeps its own name and
    default and carries the resolved hint when available, else its own
    declared one. -/
theorem C6_amended_name_based_exclusion (f : PyFunc) :
    extractFuncParams f =
      (f.params.filter fun p => !(p.name == "self" || p.name == "args" ||
        p.name == "kwargs" || headUnderscore p.name)).map (fun p =>
        { p with kind := .keywordOnly,
                 ann := match dlookup p.name (resolveHintsFunc f) with
                        | some a => some a
                        | none => p.ann }) ∧
    (extractFuncParams f).map (fun p => (p.name, p.default)) =
      (f.params.filter fun p => !funcParamExcluded p.name).map
        fun p => (p.name, p.default) := by
  constructor
  · rfl
  · simp only [extractFuncParams, List.map_map]
    rfl

/-- Claim C7: the class-parameter extractor returns one descriptor per
    resolved class annotation whose name is not exactly `return` and does
    not start with an underscore, in mapping order, each descriptor's
    default being the class attribute's value when one exists and absent
    (required) otherwise. -/
theorem C7_class_param_extraction (c : ViewClass) :
    extractClassParams c =
      ((resolveHintsCls c.anns).filter fun na =>
        !(na.1 == "return" || headUnderscore na.1)).map (fun na =>
        { name := na.1, kind := PKind.keywordOnly, ann := some na.2,
          default := dlookup na.1 c.attrs }) ∧
    ∀ p ∈ extractClassParams c,
      p.default = dlookup p.name c.attrs ∧ p.name ≠ "return" ∧
        headUnderscore p.name = false := by
  constructor
  · rfl
  · intro p hp
    simp only [extractClassParams, List.mem_map] at hp
    obtain ⟨na, hna, rfl⟩ := hp
    have hf := (List.mem_filter.mp hna).2
    rw [Bool.not_eq_true'] at hf
    simp only [classParamExcluded, Bool.or_eq_false_iff,
      beq_eq_false_iff_ne, ne_eq] at hf
    exact ⟨rfl, hf.1, hf.2⟩

/-- Witness for C7 at the concrete view `wClass`. -/
theorem C7_witness :
    extractClassParams wClass =
      ((resolveHintsCls wClass.anns).filter fun na =>
        !(na.1 == "return" || headUnderscore na.1)).map (fun na =>
        { name := na.1, kind := PKind.keywordOnly, ann := some na.2,
          default := dlookup na.1 wClass.attrs }) ∧
    ∀ p ∈ extractClassParams wClass,
      p.default = dlookup p.name wClass.attrs ∧ p.name ≠ "return" ∧
        headUnderscore p.name = false :=
  C7_class_param_extraction wClass

/-- Claim C8: registering a non-view yields the TypeError outcome and
    registers nothing; registering a view whose metadata has an empty
    configs list yields the non-fatal warning outcome and registers
    nothing — these are distinct outcomes, the second does not raise. -/
theorem C8_register_guards (path : String) (configs : List ViewConfig)
    (methods : Option (List String)) (namePre viewNameAttr : Option String)
    (clsName : String) :
    addView path false configs methods namePre viewNameAttr clsName =
      .typeErr ∧
    (configs = [] →
      addView path true configs methods namePre viewNameAttr clsName =
        .warnedEmpty) := by
  constructor
  · simp [addView]
  · intro h
    subst h
    simp [addView]

/-- Witness for C8 at concrete registrations. -/
theorem C8_witness :
    addView "/p" false [wCfg] none none none "V" = .typeErr ∧
    addView "/p" true [] none none none "V" = .warnedEmpty :=
  ⟨(C8_register_guards "/p" [wCfg] none none none "V").1,
   (C8_register_guards "/p" [] none none none "V").2 rfl⟩

/-- Claim C9: with a (nonempty) caller-supplied verb filter, exactly the
    configs whose verb name is in the lowercased filter are registered, one
    route each, in config order; non-matching configs are skipped.  The
    filter entries are lowercased, making the match case-insensitive
    (config verb names are already lowercase members of HTTP_METHODS). -/
theorem C9_methods_filter (path : String) (configs : List ViewConfig)
    (ms : List String) (namePre viewNameAttr : Option String)
    (clsName : String) (hc : configs ≠ []) (hm : ms ≠ []) :
    addView path true configs (some ms) namePre viewNameAttr clsName =
      .ok ((configs.filter fun cfg =>
          nameMem cfg.methodName (ms.map lowerStr)).map
        (mkRoute path (pyStrOr namePre (pyStrOr viewNameAttr clsName)))) := by
  have h1 : configs.isEmpty = false := by
    cases configs with
    | nil => exact absurd rfl hc
    | cons a l => rfl
  have h2 : ms.isEmpty = false := by
    cases ms with
    | nil => exact absurd rfl hm
    | cons a l => rfl
  simp only [addView, Bool.not_true, Bool.false_eq_true, if_false, h1, h2]
  rw [filterMap_if]

/-- Route config fixture carrying only a verb name. -/
def wCfgOf (n : String) : ViewConfig :=
  { methodName := n, classParams := [], prepareParams := [],
    methodParams := [], signatureParams := [], retAnn := none,
    statusCode := none }

/-- Witness for C9: the filter {"GET"} applied to a view defining get, post
    and delete registers exactly one route (case-insensitively). -/
theorem C9_witness :
    addView "/items" true [wCfgOf "get", wCfgOf "post", wCfgOf "delete"]
      (some ["GET"]) none none "ItemView" =
      .ok [{ path := "/items", httpMethod := "GET",
             routeName := "ItemView_get", statusCode := none }] :=
  (C9_methods_filter "/items" [wCfgOf "get", wCfgOf "post", wCfgOf "delete"]
    ["GET"] none none "ItemView" (by simp) (by simp)).trans (by rfl)

/-- The `request` parameter descriptor the class-params extraction builds
    for a class whose resolved hints map `request` to `rAnn`. -/
def requestParam (rAnn : String) (c : ViewClass) : Param :=
  { name := "request", kind := PKind.keywordOnly, ann := some rAnn,
    default := dlookup "request" c.attrs }

/-- Claim C10 (amended): for every view class whose resolved class hints
    contain `request` (true of every BaseView subclass, which inherits the
    base `request: Request` annotation through the ancestor-merged
    extraction), every synthesized endpoint's signature contains a
    `request` parameter whose default is the class attribute lookup —
    absent (required) exactly when the class assigns no class-level value
    named `request` — and the endpoint forwards the bound `request` value
    unchanged into the constructor, which stores it on the instance. -/
theorem C10_amended_request_in_signature (c : ViewClass)
    (cfgs : List ViewConfig) (cfg : ViewConfig) (rAnn : String)
    (hb : buildMeta c = .ok cfgs) (hcfg : cfg ∈ cfgs)
    (hreq : dlookup "request" (resolveHintsCls c.anns) = some rAnn) :
    requestParam rAnn c ∈ cfg.classParams ∧
    requestParam rAnn c ∈ cfg.signatureParams ∧
    (∀ kwargs ckw, subsetByNames cfg.classParams kwargs = .ok ckw →
      dlookup "request" ckw = dlookup "request" kwargs) ∧
    (∀ ckw inst, baseViewInit ckw = .ok inst →
      some inst.request = dlookup "request" ckw) := by
  have hb2 : buildConfigs (extractClassParams c) (extractFuncParams c.prepare)
      c HTTP_METHODS = .ok cfgs := hb
  obtain ⟨f, hmn, hcf, _⟩ := buildConfigs_ok_mem hb2 cfg hcfg
  obtain ⟨h1, h2, h3, h4, h5, h6, h7⟩ := buildConfig_ok_inv hcf
  have hmem : ("request", rAnn) ∈ resolveHintsCls c.anns := dlookup_mem hreq
  have hmemf : ("request", rAnn) ∈
      (resolveHintsCls c.anns).filter fun na => !classParamExcluded na.1 :=
    List.mem_filter.mpr ⟨hmem, by rfl⟩
  have hp : requestParam rAnn c ∈ extractClassParams c :=
    List.mem_map_of_mem _ hmemf
  refine ⟨?_, ?_, ?_, ?_⟩
  · rw [h2]
    exact hp
  · have hperm : cfg.signatureParams.Perm
        (cfg.classParams ++ cfg.prepareParams ++ cfg.methodParams) := by
      rw [h5, h2, h3, h4]
      exact sortRequiredFirst_perm _
    apply hperm.mem_iff.mpr
    apply List.mem_append_left
    apply List.mem_append_left
    rw [h2]
    exact hp
  · intro kwargs ckw hsub
    apply subsetByNames_lookup hsub
    rw [h2]
    exact List.mem_map_of_mem Param.name hp
  · intro ckw inst hinit
    unfold baseViewInit at hinit
    cases hr : dlookup "request" ckw with
    | none =>
      simp only [hr] at hinit
      exact Except.noConfusion hinit
    | some req =>
      simp only [hr, Except.ok.injEq] at hinit
      subst hinit
      rfl

/-- Witness for the amended C10 at the concrete view `wClass`. -/
theorem C10_witness :
    requestParam "Request" wClass ∈ wCfg.classParams ∧
    requestParam "Request" wClass ∈ wCfg.signatureParams ∧
    (∀ kwargs ckw, subsetByNames wCfg.classParams kwargs = .ok ckw →
      dlookup "request" ckw = dlookup "request" kwargs) ∧
    (∀ ckw inst, baseViewInit ckw = .ok inst →
      some inst.request = dlookup "request" ckw) :=
  C10_amended_request_in_signature wClass [wCfg] wCfg "Request"
    wClass_buildMeta (List.mem_singleton.mpr rfl) (by rfl)

/-- A view class that assigns a class-level value to `request`
    (`class V(BaseView): request = "fixed"` plus a bare `get`). -/
def c10Class : ViewClass :=
  { anns := { typeHints := some [("request", "Request")],
              mro := [[("request", "Request")], []] },
    attrs := [("request", .vStr "fixed")],
    prepare := wPrepareFunc,
    methods := [("get", { params := [selfP], typeHints := some [],
                          rawAnns := [], statusCode := none })] }

/-- The `request` descriptor `c10Class` produces: note the present default. -/
def c10Param : Param :=
  { name := "request", kind := .keywordOnly, ann := some "Request",
    default := some (.vStr "fixed") }

/-- The single config `buildMeta c10Class` produces. -/
def c10Cfg : ViewConfig :=
  { methodName := "get", classParams := [c10Param], prepareParams := [],
    methodParams := [], signatureParams := [c10Param], retAnn := none,
    statusCode := none }

/-- Counterexample to C10 as stated: for `c10Class` the synthesized
    endpoint's signature still contains `request`, but WITH a default
    (`getattr` finds the class attribute), so `request` is not a required
    parameter for every view class. -/
theorem C10_counterexample :
    buildMeta c10Class = .ok [c10Cfg] ∧
    ((buildMeta c10Class).toOption.getD []).all
      (fun cfg => cfg.signatureParams.all fun p => p.default.isSome) = true :=
  ⟨by rfl, by rfl⟩

end FastCbv
